import Mathlib

/-!
Verification development for the `nix_csv_parser.py` script: a shallow
embedding of its argument parsing, CSV/HTML swatch extraction, HSV sorting
and run-level control flow, together with theorems settling the spec claims.

Python strings are modelled as `List Char`; Python `None`-or-string values
(as produced by `csv.DictReader` for short rows) as `Option (List Char)`;
Python exceptions as an explicit error type threaded through `Except`;
process termination as an explicit result type `Res` carrying the log of
messages printed through the script's `msg_display` catalog and the process
exit code.  The script's `exit_wait` calls Python's `exit()` with no
argument, which terminates the process with status 0; an unhandled Python
exception terminates the interpreter with status 1.
-/

namespace NixCsv

abbrev Str := List Char

def toL (s : String) : Str := s.toList

/-- Python exception kinds that the script's code paths can raise. -/
inductive PyErr
  | keyError
  | typeError
  | valueError
  | attributeError
  | indexError
  | ioError
deriving DecidableEq, Repr

/-- Tags of the `messages` catalog in `msg_display`, with the payload
interpolated into the template (`extra_info`). -/
inductive Msg
  | errorClipNodata
  | errorNodata
  | errorOption (tok : Str)
  | errorWait
  | infoHelp
  | infoTryhelp
  | infoUsage
  | infoVersion
  | statusClipboard
  | statusFile (path : Str)
  | statusHtml
deriving DecidableEq, Repr

/-- Result of running a piece of the script: normal value plus printed
messages, process exit via `exit_wait` (Python `exit()`, status 0), or an
unhandled exception (interpreter exits with status 1). -/
inductive Res (α : Type) where
  | ok (log : List Msg) (a : α)
  | exit (log : List Msg) (code : Nat)
  | crash (log : List Msg) (e : PyErr)
deriving DecidableEq, Repr

/-- Exit status of a finished run: `exit_wait` paths carry their code,
an unhandled exception makes the Python interpreter exit with status 1. -/
def Res.exitCode : Res Unit → Option Nat
  | .ok _ _ => none
  | .exit _ c => some c
  | .crash _ _ => some 1

/- ### Python string helpers -/

/-- Python `str.lower()` (ASCII case folding suffices here). -/
def pyLower (s : Str) : Str := s.map Char.toLower

/-- Python `str.strip(c)`: remove the character from both ends. -/
def stripChar (c : Char) (l : Str) : Str :=
  ((l.dropWhile (· = c)).reverse.dropWhile (· = c)).reverse

/-- Python `str.strip()`: remove whitespace from both ends. -/
def stripWsL (l : Str) : Str :=
  ((l.dropWhile Char.isWhitespace).reverse.dropWhile Char.isWhitespace).reverse

/-- Python `str.isdigit()`: nonempty and all decimal digits. -/
def pyIsDigitStr (s : Str) : Bool := !s.isEmpty && s.all Char.isDigit

/-- Decimal value of a digit string (the guarded `int(...)` of the script). -/
def digitsVal (s : Str) : Nat := s.foldl (fun n c => n * 10 + (c.toNat - 48)) 0

/-- Python `pat in s` substring test. -/
def containsSub (pat : Str) : Str → Bool
  | [] => decide (pat = [])
  | c :: rest => pat.isPrefixOf (c :: rest) || containsSub pat rest

/-- Digit-run parser backing `pyInt`. -/
def digitsToInt? (ds : Str) : Option Int :=
  if pyIsDigitStr ds then some (digitsVal ds) else none

/-- Python `int(str)`: strip whitespace, optional sign, decimal digits;
`none` models the `ValueError` raised on anything else. -/
def pyInt (s : Str) : Option Int :=
  match stripWsL s with
  | '-' :: ds => (digitsToInt? ds).map (fun n => -n)
  | '+' :: ds => digitsToInt? ds
  | ds => digitsToInt? ds

/- ### Python decimal rendering, modelling `str(int)` -/

def digitChar (n : Nat) : Char :=
  match n with
  | 0 => '0' | 1 => '1' | 2 => '2' | 3 => '3' | 4 => '4'
  | 5 => '5' | 6 => '6' | 7 => '7' | 8 => '8' | 9 => '9'
  | _ => '*'

def natReprGo : Nat → Nat → Str
  | 0, _ => []
  | fuel + 1, n =>
    if n < 10 then [digitChar n]
    else natReprGo fuel (n / 10) ++ [digitChar (n % 10)]

/-- Decimal digits of `n`; the fuel `n + 1` always exceeds the digit count,
so this equals the naive by-tens recursion. -/
def natRepr (n : Nat) : Str := natReprGo (n + 1) n

def intRepr (i : Int) : Str :=
  if i < 0 then '-' :: natRepr i.natAbs else natRepr i.toNat

/-- Python `str((r, g, b))` for an integer triple. -/
def tupleRepr (t : Int × Int × Int) : Str :=
  toL "(" ++ intRepr t.1 ++ toL ", " ++ intRepr t.2.1 ++ toL ", " ++ intRepr t.2.2 ++ toL ")"

/- ### Hex decoding, modelling `bytes.fromhex` -/

def hexDigitTable : List (Char × Nat) :=
  [('0', 0), ('1', 1), ('2', 2), ('3', 3), ('4', 4), ('5', 5), ('6', 6), ('7', 7),
   ('8', 8), ('9', 9), ('a', 10), ('b', 11), ('c', 12), ('d', 13), ('e', 14), ('f', 15),
   ('A', 10), ('B', 11), ('C', 12), ('D', 13), ('E', 14), ('F', 15)]

def hexDigit? (c : Char) : Option Nat :=
  (hexDigitTable.find? (fun p => decide (p.1 = c))).map Prod.snd

/-- Model of `bytes.fromhex` on a space-free string: pairs of hex digits to bytes,
`none` models the `ValueError` on odd length or a non-hex character. -/
def bytesFromHex : Str → Option (List Int)
  | [] => some []
  | [_] => none
  | a :: b :: rest =>
    match hexDigit? a, hexDigit? b with
    | some x, some y => (bytesFromHex rest).map (fun l => ((16 * x + y : Nat) : Int) :: l)
    | _, _ => none

/- ### The Swatch class -/

/-- Render a Python value that is either a string or `None` with `%s`. -/
def pyStrOf : Option Str → Str
  | none => toL "None"
  | some s => s

def SWATCH_SIZE : Str := toL "72px"

def SWATCH_CHAR : Str := toL "▄"

/-- The method `Swatch.set_html`: the `%`-template
`<font color=%s size=%s>%s </font><b>HEX:</b> %s - <b>RGB:</b> %s<br>\n`
applied to `(hex_value, SWATCH_SIZE, SWATCH_CHAR, hex_value, str(rgb_value))`. -/
def set_html (hexv : Option Str) (rgbv : Int × Int × Int) : Str :=
  toL "<font color=" ++ pyStrOf hexv ++ toL " size=" ++ SWATCH_SIZE ++ toL ">"
    ++ SWATCH_CHAR ++ toL " </font><b>HEX:</b> " ++ pyStrOf hexv
    ++ toL " - <b>RGB:</b> " ++ tupleRepr rgbv ++ toL "<br>\n"

structure Swatch where
  hex_value : Option Str
  rgb_value : Int × Int × Int
  html : Str
deriving DecidableEq, Repr, Inhabited

/-- The constructor `Swatch.__init__`: store the hex value; take the RGB triple as given or,
when it is `None`, derive it by decoding the hex byte pairs after the `#`
(`bytes.fromhex(hex_value[1:])`, which can raise); then `set_html`. -/
def Swatch.make (hexv : Option Str) (rgbv : Option (Int × Int × Int)) : Except PyErr Swatch :=
  match rgbv with
  | some t => .ok ⟨hexv, t, set_html hexv t⟩
  | none =>
    match hexv with
    | none => .error .typeError
    | some hs =>
      match bytesFromHex (hs.drop 1) with
      | some [r, g, b] => .ok ⟨some hs, (r, g, b), set_html (some hs) (r, g, b)⟩
      | _ => .error .valueError

/- ### csv.DictReader model (for inputs without quoted fields) -/

def splitOnCharAux (sep : Char) (acc : Str) : Str → List Str
  | [] => [acc.reverse]
  | c :: cs => if c = sep then acc.reverse :: splitOnCharAux sep [] cs
               else splitOnCharAux sep (c :: acc) cs

def splitOnChar (sep : Char) (l : Str) : List Str := splitOnCharAux sep [] l

/-- A `DictReader` row: header fields paired with values; `none` is the
`restval=None` filled in when the data row is shorter than the header. -/
abbrev Row := List (Str × Option Str)

def zipRow : List Str → List Str → Row
  | [], _ => []
  | f :: fs, [] => (f, none) :: zipRow fs []
  | f :: fs, v :: vs => (f, some v) :: zipRow fs vs

/-- Lookup `row[k]` on the dict built from `zip(fieldnames, row)`: a duplicated
field name keeps its last value, a missing key is a `KeyError` (`none`). -/
def rowGet (row : Row) (k : Str) : Option (Option Str) :=
  (row.reverse.find? (fun p => decide (p.1 = k))).map Prod.snd

/-- Model of `csv.DictReader` over pre-split lines: the first non-blank line is the
header, every further non-blank line becomes a row dict. -/
def dictReader (lines : List Str) : List Row :=
  match lines.filter (fun l => decide (l ≠ [])) with
  | [] => []
  | hdr :: rest =>
    (rest.filter (fun l => decide (l ≠ []))).map
      (fun line => zipRow (splitOnChar ',' hdr) (splitOnChar ',' line))

/- ### get_swatches_from_data, CSV branch -/

/-- Python `int(x)` on a dict value: `None` raises `TypeError`, a non-integer
string raises `ValueError`. -/
def pyIntOfVal : Option Str → Except PyErr Int
  | none => .error .typeError
  | some s =>
    match pyInt s with
    | none => .error .valueError
    | some n => .ok n

/-- The `try` body for the Mini schema: `row[' HEX'].replace(' ', '')` and
`int` of the three `' sRGB …'` fields.  A `KeyError` from any lookup is what
the surrounding `except KeyError` catches; `TypeError`/`ValueError`/
`AttributeError` escape uncaught. -/
def tryMini (row : Row) : Except PyErr (Option Str × (Int × Int × Int)) :=
  match rowGet row (toL " HEX") with
  | none => .error .keyError
  | some none => .error .attributeError
  | some (some s) =>
    let hex := s.filter (fun c => decide (c ≠ ' '))
    match rowGet row (toL " sRGB R") with
    | none => .error .keyError
    | some rv =>
      match pyIntOfVal rv with
      | .error e => .error e
      | .ok r =>
        match rowGet row (toL " sRGB G") with
        | none => .error .keyError
        | some gv =>
          match pyIntOfVal gv with
          | .error e => .error e
          | .ok g =>
            match rowGet row (toL " sRGB B") with
            | none => .error .keyError
            | some bv =>
              match pyIntOfVal bv with
              | .error e => .error e
              | .ok b => .ok (some hex, (r, g, b))

/-- The inner `try` of the Pro branch: `int` of `row['R']`, `row['G']`,
`row['B']` in order; only `TypeError` is caught by the caller. -/
def proRGB (row : Row) : Except PyErr (Int × Int × Int) :=
  match rowGet row (toL "R") with
  | none => .error .keyError
  | some rv =>
    match pyIntOfVal rv with
    | .error e => .error e
    | .ok r =>
      match rowGet row (toL "G") with
      | none => .error .keyError
      | some gv =>
        match pyIntOfVal gv with
        | .error e => .error e
        | .ok g =>
          match rowGet row (toL "B") with
          | none => .error .keyError
          | some bv =>
            match pyIntOfVal bv with
            | .error e => .error e
            | .ok b => .ok (r, g, b)

/-- One CSV row: try the Mini schema; on `KeyError` fall back to the Pro
schema, where `hex_value = row['HEX']` (uncaught `KeyError` if absent) and
the RGB `try` catches only `TypeError`, defaulting to `(0, 0, 0)`. -/
def extractRowCsv (row : Row) : Except PyErr (Option Str × (Int × Int × Int)) :=
  match tryMini row with
  | .ok v => .ok v
  | .error .keyError =>
    match rowGet row (toL "HEX") with
    | none => .error .keyError
    | some hv =>
      match proRGB row with
      | .ok t => .ok (hv, t)
      | .error .typeError => .ok (hv, (0, 0, 0))
      | .error e => .error e
  | .error e => .error e

/-- Python truth of `hex_value != ''` (where `hex_value` may be `None`). -/
def pyNeEmptyStr : Option Str → Bool
  | none => true
  | some s => decide (s ≠ [])

/-- The swatch a row contributes to `self.swatches`, if any: appended only
when `hex_value != '' and rgb_value != (0, 0, 0)`. -/
def keepRow (row : Row) : Option Swatch :=
  match extractRowCsv row with
  | .ok (h, t) =>
    if pyNeEmptyStr h = true ∧ t ≠ (0, 0, 0) then some ⟨h, t, set_html h t⟩ else none
  | .error _ => none

/-- The `for row in reader` loop of the CSV branch. -/
def csvRowsLoop : List Row → Except PyErr (List Swatch)
  | [] => .ok []
  | r :: rs =>
    match extractRowCsv r with
    | .error e => .error e
    | .ok (h, t) =>
      if pyNeEmptyStr h = true ∧ t ≠ (0, 0, 0) then
        match Swatch.make h (some t) with
        | .error e => .error e
        | .ok sw => (csvRowsLoop rs).map (fun l => sw :: l)
      else csvRowsLoop rs

/-- The method `get_swatches_from_data(data)` with `html=False`. -/
def get_swatches_from_data (lines : List Str) : Except PyErr (List Swatch) :=
  csvRowsLoop (dictReader lines)

/- ### get_swatches_from_data, HTML branch -/

def splitWsAux (acc : Str) : Str → List Str
  | [] => if acc = [] then [] else [acc.reverse]
  | c :: cs =>
    if c.isWhitespace then
      if acc = [] then splitWsAux [] cs else acc.reverse :: splitWsAux [] cs
    else splitWsAux (c :: acc) cs

/-- Python `str.split()` with no argument: split on whitespace runs. -/
def pySplitWs (l : Str) : List Str := splitWsAux [] l

/-- The `for word in data.split()` loop of the HTML branch: for each word
containing `color=#`, take `word.split('=')[1]` as the hex value, decode
its byte pairs after the `#`, and append a swatch. -/
def htmlWordsLoop : List Str → Except PyErr (List Swatch)
  | [] => .ok []
  | w :: ws =>
    if containsSub (toL "color=#") w = true then
      match (splitOnChar '=' w).get? 1 with
      | none => .error .indexError
      | some hexv =>
        match bytesFromHex (hexv.drop 1) with
        | some [r, g, b] =>
          match Swatch.make (some hexv) (some (r, g, b)) with
          | .error e => .error e
          | .ok sw => (htmlWordsLoop ws).map (fun l => sw :: l)
        | _ => .error .valueError
    else htmlWordsLoop ws

/-- The method `get_swatches_from_data(data, html=True)`. -/
def get_swatches_from_data_html (data : Str) : Except PyErr (List Swatch) :=
  htmlWordsLoop (pySplitWs data)

/-- Python `str.splitlines()` restricted to `\n` separators. -/
def pySplitLines (l : Str) : List Str :=
  if l = [] then []
  else
    let p := splitOnChar '\n' l
    if p.getLast? = some [] then p.dropLast else p

/- ### CSVParser.parse_args -/

inductive Mode
  | file
  | clipboard
deriving DecidableEq, Repr

inductive SortType
  | hue
  | saturation
  | value
deriving DecidableEq, Repr

/-- The option state `parse_args` leaves on the `CSVParser` instance.
`file` is the attribute assigned in the clipboard-path branch
(`self.file = clipboard_data.strip('"')`); note it is distinct from
`csv_file`, the attribute every later consumer reads. -/
structure Config where
  mode : Mode
  csv_file : Option Str
  file : Option Str
  sort_type : Option SortType
  wait : Nat
deriving DecidableEq, Repr

inductive WaitRes
  | ok (w : Nat) (rest : List Str)
  | exitWait
  | crashEmpty
deriving DecidableEq, Repr

/-- The wait-scan loop: find the first argument with
`(arg[0] == '-' and arg[-1] == 'w') or arg == '--wait'`; its successor must
be all digits (else the invalid-wait exit); consume the value, delete
`--wait` or strip the `w` letters, and stop.  `arg[0]` on an empty argument
raises `IndexError`. -/
def waitScan : List Str → WaitRes
  | [] => .ok 0 []
  | arg :: rest =>
    match arg with
    | [] => .crashEmpty
    | c :: cs =>
      if (c = '-' ∧ (c :: cs).getLastD ' ' = 'w') ∨ c :: cs = toL "--wait" then
        match rest with
        | [] => .exitWait
        | next :: rest2 =>
          if pyIsDigitStr next = true then
            if c :: cs = toL "--wait" then .ok (digitsVal next) rest2
            else .ok (digitsVal next) (stripChar 'w' (c :: cs) :: rest2)
          else .exitWait
      else
        match waitScan rest with
        | .ok w rest2 => .ok w ((c :: cs) :: rest2)
        | r => r

/-- The options/file loop: `--x` contributes the long name `x`, `-abc`
contributes the letters `a`, `b`, `c`, an argument whose lowercase form
contains `.csv` is recorded as the CSV file (the last one wins), anything
else is ignored.  `arg[0]` on an empty argument raises `IndexError`. -/
def scanOptions : List Str → Except PyErr (List Str × Option Str)
  | [] => .ok ([], none)
  | arg :: rest =>
    if arg.take 2 = toL "--" then
      (scanOptions rest).map (fun p => (arg.drop 2 :: p.1, p.2))
    else
      match arg with
      | [] => .error .indexError
      | c :: cs =>
        if c = '-' then
          (scanOptions rest).map (fun p => (cs.map (fun ch => [ch]) ++ p.1, p.2))
        else if containsSub (toL ".csv") (pyLower (c :: cs)) = true then
          (scanOptions rest).map
            (fun p => (p.1, match p.2 with | some f => some f | none => some (c :: cs)))
        else scanOptions rest

def possible_options : List Str :=
  [toL "H", toL "help", toL "V", toL "version", toL "c", toL "clipboard",
   toL "h", toL "sort-hue", toL "s", toL "sort-sat", toL "v", toL "sort-val"]

def firstInvalidOption (options : List Str) : Option Str :=
  options.find? (fun o => decide (o ∉ possible_options))

/-- The prefix re-attached to an invalid option in the diagnostic:
chosen by the length of the extracted name, not by its origin. -/
def optPrefix (o : Str) : Str := if o.length > 1 then toL "--" else toL "-"

/-- The sort-type ladder at the end of `parse_args`. -/
def determineSort (options : List Str) : Option SortType :=
  if toL "h" ∈ options ∨ toL "sort-hue" ∈ options then some .hue
  else if toL "s" ∈ options ∨ toL "sort-sat" ∈ options then some .saturation
  else if toL "v" ∈ options ∨ toL "sort-val" ∈ options then some .value
  else none

/-- The method `CSVParser.parse_args` for argument list `sys.argv[1:]` and the current
clipboard text (read while parsing when `-c`/`--clipboard` is given). -/
def parse_args (args : List Str) (clip : Str) : Res Config :=
  if args = [] then .exit [.infoUsage] 0
  else
    match waitScan args with
    | .crashEmpty => .crash [] .indexError
    | .exitWait => .exit [.errorWait, .infoTryhelp] 0
    | .ok w args2 =>
      match scanOptions args2 with
      | .error e => .crash [] e
      | .ok (options, csvf) =>
        match firstInvalidOption options with
        | some o => .exit [.errorOption (optPrefix o ++ o), .infoTryhelp] 0
        | none =>
          if toL "H" ∈ options ∨ toL "help" ∈ options then .exit [.infoHelp] 0
          else if toL "V" ∈ options ∨ toL "version" ∈ options then .exit [.infoVersion] 0
          else
            let mf : Mode × Option Str :=
              if toL "c" ∈ options ∨ toL "clipboard" ∈ options then
                if containsSub (toL ".csv") (pyLower clip) = true then
                  (Mode.file, some (stripChar '"' clip))
                else (Mode.clipboard, none)
              else (Mode.file, none)
            .ok [] { mode := mf.1, csv_file := csvf, file := mf.2,
                     sort_type := determineSort options, wait := w }

/- ### CSVParser.get_swatches -/

/-- The external world: clipboard text and the filesystem (a readable file
is its list of lines; `none` means `open` raises, which is unhandled). -/
structure Ctx where
  clip : Str
  fs : Str → Option (List Str)

def get_swatches (cfg : Config) (ctx : Ctx) : Res (List Swatch) :=
  if cfg.mode = Mode.clipboard then
    if containsSub (toL "HEX,") ctx.clip = true then
      match get_swatches_from_data (pySplitLines ctx.clip) with
      | .ok sw => .ok [.statusClipboard] sw
      | .error e => .crash [.statusClipboard] e
    else if containsSub (toL "<font color=#") ctx.clip = true then
      match get_swatches_from_data_html ctx.clip with
      | .ok sw => .ok [.statusClipboard, .statusHtml] sw
      | .error e => .crash [.statusClipboard, .statusHtml] e
    else .exit [.statusClipboard, .errorClipNodata, .infoTryhelp] 0
  else
    match cfg.csv_file with
    | some path =>
      match ctx.fs path with
      | none => .crash [.statusFile path] .ioError
      | some lines =>
        match get_swatches_from_data lines with
        | .ok sw => .ok [.statusFile path] sw
        | .error e => .crash [.statusFile path] e
    | none => .exit [.errorNodata, .infoUsage, .infoTryhelp] 0

/- ### colorsys.rgb_to_hsv and CSVParser.sort_swatches -/

/-- Python `h % 1.0` for the hue wrap-around, on exact rationals. -/
def pymodOne (x : ℚ) : ℚ := x - (⌊x⌋ : ℚ)

/-- Port of `colorsys.rgb_to_hsv`, fed the raw 0–255 channel values as the script
does, with exact rational arithmetic standing in for floats. -/
def rgb_to_hsv (r g b : ℚ) : ℚ × ℚ × ℚ :=
  let maxc := max r (max g b)
  let minc := min r (min g b)
  let v := maxc
  if minc = maxc then (0, 0, v)
  else
    let s := (maxc - minc) / maxc
    let rc := (maxc - r) / (maxc - minc)
    let gc := (maxc - g) / (maxc - minc)
    let bc := (maxc - b) / (maxc - minc)
    let h := if r = maxc then bc - gc
             else if g = maxc then 2 + rc - bc
             else 4 + gc - rc
    (pymodOne (h / 6), s, v)

/-- The sort key used in `sort_swatches`:
`colorsys.rgb_to_hsv(x.rgb_value[0], x.rgb_value[1], x.rgb_value[2])[i]`. -/
def hsvKey (t : SortType) (s : Swatch) : ℚ :=
  let h := rgb_to_hsv (s.rgb_value.1 : ℚ) (s.rgb_value.2.1 : ℚ) (s.rgb_value.2.2 : ℚ)
  match t with
  | .hue => h.1
  | .saturation => h.2.1
  | .value => h.2.2

/-- The method `CSVParser.sort_swatches`: `sorted` is ascending and stable, modelled by
insertion sort with the non-strict key comparison. -/
def sort_swatches (st : Option SortType) (l : List Swatch) : List Swatch :=
  match st with
  | none => l
  | some t => List.insertionSort (fun a b => hsvKey t a ≤ hsvKey t b) l

/- ### main -/

/-- The function `main`: parse the arguments, get the swatches, sort them, output them
(console lines and a clipboard write, not part of the message log), then
`exit_wait(self.wait)`, i.e. Python `exit()` with status 0. -/
def runMain (args : List Str) (ctx : Ctx) : Res Unit :=
  match parse_args args ctx.clip with
  | .exit l c => .exit l c
  | .crash l e => .crash l e
  | .ok l cfg =>
    match get_swatches cfg ctx with
    | .exit l2 c => .exit (l ++ l2) c
    | .crash l2 e => .crash (l ++ l2) e
    | .ok l2 sw =>
      let _sorted := sort_swatches cfg.sort_type sw
      .exit (l ++ l2) 0

/-- An empty world for concrete runs: empty clipboard, no readable files. -/
def ctx0 : Ctx := ⟨[], fun _ => none⟩

/- ### Derived definitions used to state the claims -/

/-- The row dict `DictReader` builds for one data line under a header. -/
def rowOfLine (hdr line : Str) : Row :=
  zipRow (splitOnChar ',' hdr) (splitOnChar ',' line)

/-- A data line that the Mini branch accepts outright: the Mini `try` body
succeeds and yields a non-empty hex and a non-zero RGB triple. -/
def miniRowOk (hdr line : Str) : Bool :=
  match tryMini (rowOfLine hdr line) with
  | .ok (h, t) => pyNeEmptyStr h && decide (t ≠ (0, 0, 0))
  | .error _ => false

/-- The swatch a Mini-accepted data line contributes. -/
def miniSwatch (hdr line : Str) : Swatch :=
  match tryMini (rowOfLine hdr line) with
  | .ok (h, t) => ⟨h, t, set_html h t⟩
  | .error _ => default

/-- Numeric value of a hex digit (0 for non-digits; used under an
`isSome` hypothesis). -/
def hexVal (c : Char) : Nat := (hexDigit? c).getD 0

/-- The byte a pair of hex digits decodes to. -/
def hexByte (a b : Char) : Int := ((16 * hexVal a + hexVal b : Nat) : Int)

/- ### Helper lemmas -/

theorem zipRow_fst_mem {fields : List Str} {vals : List Str} {p : Str × Option Str}
    (hp : p ∈ zipRow fields vals) : p.1 ∈ fields := by
  induction fields generalizing vals with
  | nil => simp [zipRow] at hp
  | cons f fs ih =>
    cases vals with
    | nil =>
      simp only [zipRow] at hp
      cases hp with
      | head => exact List.mem_cons_self _ _
      | tail _ hp => exact List.mem_cons_of_mem _ (ih hp)
    | cons v vs =>
      simp only [zipRow] at hp
      cases hp with
      | head => exact List.mem_cons_self _ _
      | tail _ hp => exact List.mem_cons_of_mem _ (ih hp)

theorem rowGet_eq_none {fields vals : List Str} {k : Str}
    (hk : k ∉ fields) : rowGet (zipRow fields vals) k = none := by
  unfold rowGet
  rw [Option.map_eq_none', List.find?_eq_none]
  intro p hp
  have : p.1 ∈ fields := zipRow_fst_mem (List.mem_reverse.mp hp)
  simp only [decide_eq_true_eq]
  exact fun h => hk (h ▸ this)

theorem parse_args_exit_zero {args : List Str} {clip : Str} {l : List Msg} {c : Nat}
    (h : parse_args args clip = .exit l c) : c = 0 := by
  unfold parse_args at h
  split at h
  · cases h; rfl
  · cases hw : waitScan args <;> simp only [hw] at h
    case crashEmpty => cases h
    case exitWait => cases h; rfl
    case ok w args2 =>
      cases hs : scanOptions args2 <;> simp only [hs] at h
      case error e => cases h
      case ok p =>
        obtain ⟨options, csvf⟩ := p
        cases hf : firstInvalidOption options <;> simp only [hf] at h
        case some o => cases h; rfl
        case none =>
          split at h
          · cases h; rfl
          · split at h
            · cases h; rfl
            · cases h

theorem get_swatches_exit_zero {cfg : Config} {ctx : Ctx} {l : List Msg} {c : Nat}
    (h : get_swatches cfg ctx = .exit l c) : c = 0 := by
  unfold get_swatches at h
  split at h
  · split at h
    · cases hd : get_swatches_from_data (pySplitLines ctx.clip) <;> simp only [hd] at h
      · cases h
      · cases h
    · split at h
      · cases hd : get_swatches_from_data_html ctx.clip <;> simp only [hd] at h
        · cases h
        · cases h
      · cases h; rfl
  · cases hc : cfg.csv_file <;> simp only [hc] at h
    case none => cases h; rfl
    case some path =>
      cases hfs : ctx.fs path <;> simp only [hfs] at h
      case none => cases h
      case some lines =>
        cases hd : get_swatches_from_data lines <;> simp only [hd] at h
        · cases h
        · cases h

/- ### The claims -/

/-- C1, counterexample: invoking with zero arguments reaches the
"print usage and exit" error path, but the script's `exit()` terminates the
process with status 0, not the non-zero exit code the claim requires. -/
theorem c1_counterexample :
    runMain [] ctx0 = .exit [.infoUsage] 0 ∧ (runMain [] ctx0).exitCode = some 0 :=
  ⟨rfl, rfl⟩

/-- C1 (amended): every run that terminates through the script's own
`exit_wait`/`exit()` — all the listed error paths (no arguments,
unrecognized option, invalid or missing wait value, no CSV data found in
clipboard, no data provided) as well as success, `--help` and `--version` —
exits with status 0, because `exit()` is always called with no argument;
only unhandled exceptions make the interpreter exit non-zero. -/
theorem c1_amended (args : List Str) (ctx : Ctx) (l : List Msg) (c : Nat)
    (h : runMain args ctx = .exit l c) :
    c = 0 ∧ (runMain args ctx).exitCode = some 0 := by
  have hc : c = 0 := by
    unfold runMain at h
    cases hp : parse_args args ctx.clip <;> simp only [hp] at h
    case exit lp cp => cases h; exact parse_args_exit_zero hp
    case crash lp e => cases h
    case ok lp cfg =>
      cases hg : get_swatches cfg ctx <;> simp only [hg] at h
      case exit l2 c2 => cases h; exact get_swatches_exit_zero hg
      case crash l2 e => cases h
      case ok l2 sw => cases h; rfl
  exact ⟨hc, by rw [h, hc]; rfl⟩

/-- C1 witness: the `--help` run satisfies the hypothesis and exits 0. -/
theorem c1_amended_witness :
    runMain [toL "--help"] ctx0 = .exit [.infoHelp] 0 ∧
      (0 = 0 ∧ (runMain [toL "--help"] ctx0).exitCode = some 0) :=
  ⟨rfl, c1_amended [toL "--help"] ctx0 [.infoHelp] 0 rfl⟩

/-- C2: with `--clipboard` and a clipboard text containing `.csv`, the
parser stores the path in the never-read attribute `self.file` instead of
`self.csv_file`, leaves the mode as `file`, and the run then dies on the
"no CSV data provided" error path without ever opening the file —
for every filesystem, even one where the file exists. -/
theorem c2_clipboard_path_bug (fs : Str → Option (List Str)) :
    runMain [toL "--clipboard"] ⟨toL "test.csv", fs⟩
        = .exit [.errorNodata, .infoUsage, .infoTryhelp] 0 ∧
      parse_args [toL "--clipboard"] (toL "test.csv")
        = .ok [] ⟨Mode.file, none, some (toL "test.csv"), none, 0⟩ :=
  ⟨rfl, rfl⟩

/-- C3, counterexample: a Pro-schema row whose `R` field is present but not
integer-parseable raises `ValueError`, which the `except TypeError` does not
catch: extraction fails instead of defaulting the triple to `(0,0,0)`. -/
theorem c3_counterexample :
    get_swatches_from_data [toL "HEX,R,G,B", toL "#123456,x,0,0"] = .error .valueError :=
  rfl

/-- C3 (amended): in a Pro-schema row the RGB triple defaults to `(0,0,0)`
(and the row is then excluded by the zero-RGB filter) only when the numeric
field is `None` because the data row is shorter than the header, which makes
`int(None)` raise the caught `TypeError`; a field that is present but not
parseable as an integer raises an uncaught `ValueError` that aborts
extraction. -/
theorem c3_amended :
    (∀ (row : Row) (h : Option Str),
      tryMini row = .error .keyError →
      rowGet row (toL "HEX") = some h →
      rowGet row (toL "R") = some none →
      extractRowCsv row = .ok (h, (0, 0, 0)) ∧ keepRow row = none) ∧
    (∀ (row : Row) (h : Option Str) (s : Str),
      tryMini row = .error .keyError →
      rowGet row (toL "HEX") = some h →
      rowGet row (toL "R") = some (some s) →
      pyInt s = none →
      extractRowCsv row = .error .valueError) := by
  constructor
  · intro row h hm hh hr
    have he : extractRowCsv row = .ok (h, (0, 0, 0)) := by
      unfold extractRowCsv proRGB pyIntOfVal
      simp only [hm, hh, hr]
    refine ⟨he, ?_⟩
    unfold keepRow
    rw [he]
    simp
  · intro row h s hm hh hr hs
    unfold extractRowCsv proRGB pyIntOfVal
    simp only [hm, hh, hr, hs]

/-- C3 witness: the short Pro row `#123456` under header `HEX,R,G,B` has
`R = None`, defaults to `(0,0,0)` and is excluded; the row `#123456,x,0,0`
has `R = "x"` and aborts with `ValueError`. -/
theorem c3_amended_witness :
    (extractRowCsv (rowOfLine (toL "HEX,R,G,B") (toL "#123456"))
        = .ok (some (toL "#123456"), (0, 0, 0)) ∧
      keepRow (rowOfLine (toL "HEX,R,G,B") (toL "#123456")) = none) ∧
    extractRowCsv (rowOfLine (toL "HEX,R,G,B") (toL "#123456,x,0,0")) = .error .valueError :=
  ⟨c3_amended.1 _ (some (toL "#123456")) rfl rfl rfl,
   c3_amended.2 _ (some (toL "#123456")) (toL "x") rfl rfl rfl rfl⟩

/-- C7, counterexample: `--sort hue` does not set the hue sort key; `sort`
is not among the recognized option names, so the run is rejected with an
unrecognized-option diagnostic naming `--sort`. -/
theorem c7_counterexample :
    runMain [toL "--sort", toL "hue"] ctx0
      = .exit [.errorOption (toL "--sort"), .infoTryhelp] 0 :=
  rfl

/-- C8, counterexample: for the long option `--z`, whose extracted name is
the single character `z`, the diagnostic reconstructs the prefix from the
name's length and echoes `-z`, not the original token `--z`; and the run
terminates with status 0, not a non-zero exit code. -/
theorem c8_counterexample :
    runMain [toL "--z"] ctx0 = .exit [.errorOption (toL "-z"), .infoTryhelp] 0 ∧
      toL "-z" ≠ toL "--z" ∧ (runMain [toL "--z"] ctx0).exitCode = some 0 :=
  ⟨rfl, by decide, rfl⟩

/-- C10: when the header row contains neither the Mini key `' HEX'` nor the
Pro key `'HEX'`, the Mini lookup's `KeyError` is caught but the Pro lookup
`row['HEX']` raises an uncaught `KeyError` on the first data row, aborting
the whole extraction regardless of any later rows. -/
theorem c10_missing_hex_key (hdr line : Str) (rest : List Str)
    (h1 : hdr ≠ []) (h2 : line ≠ [])
    (h3 : toL " HEX" ∉ splitOnChar ',' hdr) (h4 : toL "HEX" ∉ splitOnChar ',' hdr) :
    get_swatches_from_data (hdr :: line :: rest) = .error .keyError := by
  unfold get_swatches_from_data dictReader
  simp only [List.filter_cons, decide_eq_true_eq, h1, h2, if_pos, ne_eq,
    not_false_eq_true, decide_True]
  unfold csvRowsLoop
  have hm : tryMini (zipRow (splitOnChar ',' hdr) (splitOnChar ',' line)) = .error .keyError := by
    unfold tryMini
    rw [rowGet_eq_none h3]
  have hp : extractRowCsv (zipRow (splitOnChar ',' hdr) (splitOnChar ',' line))
      = .error .keyError := by
    unfold extractRowCsv
    rw [hm, rowGet_eq_none h4]
  simp [hp]

/-- C10 witness: a two-column CSV with neither HEX key aborts. -/
theorem c10_missing_hex_key_witness :
    get_swatches_from_data [toL "A,B", toL "1,2"] = .error .keyError :=
  c10_missing_hex_key (toL "A,B") (toL "1,2") [] (by decide) (by decide)
    (by decide) (by decide)

/-- C9: the sort-type ladder gives hue precedence over saturation and
saturation precedence over value, and depends only on which flags are
present, not on their order (it is invariant under permutation of the
extracted options). -/
theorem c9_sort_precedence :
    (∀ opts opts' : List Str, opts.Perm opts' → determineSort opts = determineSort opts') ∧
    (∀ opts : List Str, (toL "h" ∈ opts ∨ toL "sort-hue" ∈ opts) →
      determineSort opts = some .hue) ∧
    (∀ opts : List Str, ¬(toL "h" ∈ opts ∨ toL "sort-hue" ∈ opts) →
      (toL "s" ∈ opts ∨ toL "sort-sat" ∈ opts) → determineSort opts = some .saturation) ∧
    (∀ opts : List Str, ¬(toL "h" ∈ opts ∨ toL "sort-hue" ∈ opts) →
      ¬(toL "s" ∈ opts ∨ toL "sort-sat" ∈ opts) →
      (toL "v" ∈ opts ∨ toL "sort-val" ∈ opts) → determineSort opts = some .value) := by
  refine ⟨?_, ?_, ?_, ?_⟩
  · intro opts opts' hperm
    unfold determineSort
    simp only [hperm.mem_iff]
  · intro opts hh
    unfold determineSort
    rw [if_pos hh]
  · intro opts hh hs
    unfold determineSort
    rw [if_neg hh, if_pos hs]
  · intro opts hh hs hv
    unfold determineSort
    rw [if_neg hh, if_neg hs, if_pos hv]

theorem csvRowsLoop_mini {hdr : Str} : ∀ (lines : List Str),
    (∀ l ∈ lines, miniRowOk hdr l = true) →
    csvRowsLoop (lines.map (rowOfLine hdr)) = .ok (lines.map (miniSwatch hdr))
  | [], _ => rfl
  | l :: ls, hok => by
    have hl : miniRowOk hdr l = true := hok l (List.mem_cons_self _ _)
    have hls : ∀ x ∈ ls, miniRowOk hdr x = true :=
      fun x hx => hok x (List.mem_cons_of_mem _ hx)
    cases htm : tryMini (rowOfLine hdr l) with
    | error e => rw [miniRowOk, htm] at hl; cases hl
    | ok v =>
      obtain ⟨hx, t⟩ := v
      rw [miniRowOk, htm, Bool.and_eq_true, decide_eq_true_eq] at hl
      have he : extractRowCsv (rowOfLine hdr l) = .ok (hx, t) := by
        unfold extractRowCsv
        rw [htm]
      have hsw : miniSwatch hdr l = ⟨hx, t, set_html hx t⟩ := by
        rw [miniSwatch, htm]
      simp only [List.map_cons]
      unfold csvRowsLoop
      rw [hsw]
      simp only [he, if_pos hl, Swatch.make, Except.map, csvRowsLoop_mini ls hls]

/-- C4: a CSV row's record is appended to the output iff its resolved hex
is non-empty and its resolved RGB triple is not `(0,0,0)` (the successful
extraction is exactly the in-order `filterMap` of that per-row test); and a
CSV input whose data rows all satisfy the Mini schema with non-empty HEX and
non-zero RGB extracts to exactly one record per data row, in row order. -/
theorem c4_append_iff :
    (∀ (rows : List Row) (out : List Swatch),
      csvRowsLoop rows = .ok out → out = rows.filterMap keepRow) ∧
    (∀ (hdr : Str) (lines : List Str), hdr ≠ [] →
      (∀ l ∈ lines, l ≠ [] ∧ miniRowOk hdr l = true) →
      get_swatches_from_data (hdr :: lines) = .ok (lines.map (miniSwatch hdr))) := by
  constructor
  · intro rows
    induction rows with
    | nil => intro out h; cases h; rfl
    | cons r rs ih =>
      intro out h
      unfold csvRowsLoop at h
      cases he : extractRowCsv r <;> simp only [he] at h
      case error e => cases h
      case ok v =>
        obtain ⟨hx, t⟩ := v
        by_cases hc : pyNeEmptyStr hx = true ∧ t ≠ (0, 0, 0)
        · rw [if_pos hc] at h
          simp only [Swatch.make] at h
          cases hrec : csvRowsLoop rs <;> simp only [hrec, Except.map] at h
          · cases h
          · cases h
            have hk : keepRow r = some ⟨hx, t, set_html hx t⟩ := by
              simp only [keepRow, he, if_pos hc]
            rw [List.filterMap_cons, hk, ih _ hrec]
        · rw [if_neg hc] at h
          have hk : keepRow r = none := by
            simp only [keepRow, he, if_neg hc]
          rw [List.filterMap_cons, hk, ih out h]
  · intro hdr lines h1 h2
    have hfil : lines.filter (fun l => decide (l ≠ [])) = lines := by
      rw [List.filter_eq_self]
      intro a ha
      simpa using (h2 a ha).1
    unfold get_swatches_from_data dictReader
    simp only [List.filter_cons, ne_eq, h1, not_false_eq_true, decide_True, if_pos, hfil]
    exact csvRowsLoop_mini lines (fun l hl => (h2 l hl).2)

/-- C4 witness: a two-row Mini-schema CSV extracts to exactly its two
records in row order. -/
theorem c4_append_iff_witness :
    get_swatches_from_data
        [toL "Name, HEX, sRGB R, sRGB G, sRGB B",
         toL "a,#FFC700,255,199,0", toL "b,#008052,0,128,82"]
      = .ok ([toL "a,#FFC700,255,199,0", toL "b,#008052,0,128,82"].map
          (miniSwatch (toL "Name, HEX, sRGB R, sRGB G, sRGB B"))) :=
  c4_append_iff.2 (toL "Name, HEX, sRGB R, sRGB G, sRGB B")
    [toL "a,#FFC700,255,199,0", toL "b,#008052,0,128,82"]
    (by decide) (by decide)

theorem orderedInsert_filter_eq {α β : Type} [LinearOrder β] (f : α → β) (a : α) (q : β)
    (ha : f a = q) : ∀ l : List α,
    (List.orderedInsert (fun x y => f x ≤ f y) a l).filter (fun x => decide (f x = q))
      = a :: l.filter (fun x => decide (f x = q))
  | [] => by simp [List.orderedInsert, ha]
  | b :: t => by
    by_cases hab : f a ≤ f b
    · rw [List.orderedInsert, if_pos hab]
      simp [List.filter_cons, ha]
    · have hbq : f b ≠ q := fun hb => hab (le_of_eq (ha.trans hb.symm))
      rw [List.orderedInsert, if_neg hab]
      simp [List.filter_cons, hbq, orderedInsert_filter_eq f a q ha t]

theorem orderedInsert_filter_ne {α β : Type} [LinearOrder β] (f : α → β) (a : α) (q : β)
    (ha : f a ≠ q) : ∀ l : List α,
    (List.orderedInsert (fun x y => f x ≤ f y) a l).filter (fun x => decide (f x = q))
      = l.filter (fun x => decide (f x = q))
  | [] => by simp [List.orderedInsert, ha]
  | b :: t => by
    by_cases hab : f a ≤ f b
    · rw [List.orderedInsert, if_pos hab]
      simp [List.filter_cons, ha]
    · rw [List.orderedInsert, if_neg hab]
      simp [List.filter_cons, orderedInsert_filter_ne f a q ha t]

theorem insertionSort_filter {α β : Type} [LinearOrder β] (f : α → β) (q : β) :
    ∀ l : List α,
    (List.insertionSort (fun x y => f x ≤ f y) l).filter (fun x => decide (f x = q))
      = l.filter (fun x => decide (f x = q))
  | [] => rfl
  | x :: xs => by
    rw [List.insertionSort]
    by_cases hx : f x = q
    · rw [orderedInsert_filter_eq f x q hx, insertionSort_filter f q xs, List.filter_cons]
      simp [hx]
    · rw [orderedInsert_filter_ne f x q hx, insertionSort_filter f q xs, List.filter_cons]
      simp [hx]

/-- C6: with a sort key selected, `sort_swatches` returns a permutation of
its input that is ascending in the selected HSV component computed (exactly,
with no rounding) from the raw 0–255 channel values, and the sort is stable:
for every key value, the sublist of records having that exact key is
unchanged; with `sort_type = None`, the output is exactly the input order. -/
theorem c6_sort_spec (l : List Swatch) :
    sort_swatches none l = l ∧
    ∀ t : SortType,
      (sort_swatches (some t) l).Perm l ∧
      (sort_swatches (some t) l).Pairwise (fun a b => hsvKey t a ≤ hsvKey t b) ∧
      ∀ q : ℚ, (sort_swatches (some t) l).filter (fun s => decide (hsvKey t s = q))
          = l.filter (fun s => decide (hsvKey t s = q)) := by
  refine ⟨rfl, fun t => ⟨?_, ?_, ?_⟩⟩
  · exact List.perm_insertionSort _ l
  · haveI : IsTotal Swatch (fun a b => hsvKey t a ≤ hsvKey t b) :=
      ⟨fun a b => le_total _ _⟩
    haveI : IsTrans Swatch (fun a b => hsvKey t a ≤ hsvKey t b) :=
      ⟨fun _ _ _ hab hbc => le_trans hab hbc⟩
    exact List.sorted_insertionSort _ l
  · intro q
    exact insertionSort_filter (hsvKey t) q l

/-- C7 (amended): `--sort TYPE` is not a recognized option at all: for any
TYPE value (one that is not itself consumed as a wait flag), the run is
rejected with an unrecognized-option diagnostic naming `--sort` plus the
try-help hint, and exits (status 0) without setting any sort key; only
`-h`/`--sort-hue`, `-s`/`--sort-sat`, `-v`/`--sort-val` select a sort. -/
theorem c7_amended (ty : Str) (ctx : Ctx)
    (h1 : ty ≠ [])
    (h2 : ¬(ty.headD ' ' = '-' ∧ ty.getLastD ' ' = 'w'))
    (h3 : ty ≠ toL "--wait") :
    runMain [toL "--sort", ty] ctx
      = .exit [.errorOption (toL "--sort"), .infoTryhelp] 0 := by
  rcases ty with _ | ⟨c, cs⟩
  · exact absurd rfl h1
  have hcond2 : ¬((c = '-' ∧ (c :: cs).getLastD ' ' = 'w') ∨ c :: cs = toL "--wait") := by
    rintro (⟨hch, hcl⟩ | hcw)
    · exact h2 ⟨by simpa using hch, by simpa using hcl⟩
    · exact h3 hcw
  have hts : toL "--sort" = ['-', '-', 's', 'o', 'r', 't'] := rfl
  have hwait : waitScan [toL "--sort", c :: cs] = .ok 0 [toL "--sort", c :: cs] := by
    simp only [hts, waitScan]
    rw [if_neg (by decide)]
    rw [if_neg hcond2]
  obtain ⟨p, hp⟩ : ∃ p, scanOptions [c :: cs] = .ok p := by
    unfold scanOptions
    by_cases ht : (c :: cs).take 2 = toL "--"
    · rw [if_pos ht]
      exact ⟨_, rfl⟩
    · rw [if_neg ht]
      by_cases hc : c = '-'
      · simp only [if_pos hc]
        exact ⟨_, rfl⟩
      · by_cases hcsv : containsSub (toL ".csv") (pyLower (c :: cs)) = true
        · simp only [if_neg hc, if_pos hcsv]
          exact ⟨_, rfl⟩
        · simp only [if_neg hc, if_neg hcsv]
          exact ⟨_, rfl⟩
  have hscan : scanOptions [toL "--sort", c :: cs] = .ok (toL "sort" :: p.1, p.2) := by
    unfold scanOptions
    rw [if_pos (by decide)]
    rw [hp]
    rfl
  have hfi : firstInvalidOption (toL "sort" :: p.1) = some (toL "sort") := by
    unfold firstInvalidOption
    exact List.find?_cons_of_pos _ (by decide)
  have hpa : parse_args [toL "--sort", c :: cs] ctx.clip
      = .exit [.errorOption (toL "--sort"), .infoTryhelp] 0 := by
    unfold parse_args
    rw [if_neg (by simp)]
    simp only [hwait, hscan, hfi]
    rfl
  unfold runMain
  rw [hpa]

/-- C7 witness: `--sort hue` is rejected as unrecognized. -/
theorem c7_amended_witness :
    runMain [toL "--sort", toL "hue"] ctx0
      = .exit [.errorOption (toL "--sort"), .infoTryhelp] 0 :=
  c7_amended (toL "hue") ctx0 (by decide) (by decide) (by decide)

/-- C8 (amended): an unrecognized long option `--NAME` (not consumed as a
wait flag) is rejected with a diagnostic whose prefix is reconstructed from
the length of the extracted name — `--` for a multi-character name but `-`
for a single-character name, so `--z` is echoed as `-z` — followed by the
try-help hint; the run terminates through `exit()` with status 0 (not a
non-zero code) and performs no extraction (the message log shows nothing
else happened). -/
theorem c8_amended (name : Str) (ctx : Ctx)
    (h2 : name.getLast? ≠ some 'w') (h3 : name ≠ toL "wait")
    (h4 : name ∉ possible_options) :
    runMain [('-' :: '-' :: name)] ctx
      = .exit [.errorOption (optPrefix name ++ name), .infoTryhelp] 0 := by
  have hgl : ('-' :: '-' :: name).getLastD ' ' ≠ 'w' := by
    rw [List.getLastD_cons, List.getLastD_cons, List.getLastD_eq_getLast?]
    cases hgo : name.getLast? with
    | none => simp
    | some x =>
      have hx : x ≠ 'w' := fun he => h2 (he ▸ hgo)
      simpa using hx
  have hnw : ('-' :: '-' :: name) ≠ toL "--wait" := by
    have hb : toL "--wait" = '-' :: '-' :: toL "wait" := rfl
    rw [hb]
    intro hEq
    apply h3
    injection hEq with _ hEq1
    injection hEq1
  have hcond : ¬((('-' : Char) = '-' ∧ ('-' :: '-' :: name).getLastD ' ' = 'w')
      ∨ '-' :: '-' :: name = toL "--wait") := by
    rintro (⟨_, hcl⟩ | hcw)
    · exact hgl hcl
    · exact hnw hcw
  have hwait : waitScan [('-' :: '-' :: name)] = .ok 0 [('-' :: '-' :: name)] := by
    simp only [waitScan, true_and]
    rw [if_neg (not_or.mpr ⟨hgl, hnw⟩)]
  have hscan : scanOptions [('-' :: '-' :: name)] = .ok ([name], none) := by
    unfold scanOptions
    rw [if_pos (by rfl)]
    rfl
  have hfi : firstInvalidOption [name] = some name := by
    unfold firstInvalidOption
    exact List.find?_cons_of_pos _ (decide_eq_true h4)
  have hpa : parse_args [('-' :: '-' :: name)] ctx.clip
      = .exit [.errorOption (optPrefix name ++ name), .infoTryhelp] 0 := by
    unfold parse_args
    rw [if_neg (by simp)]
    simp only [hwait, hscan, hfi]
  unfold runMain
  rw [hpa]

/-- C8 witness: the single-character long option `--z` is echoed as `-z`
with the try-help hint, exiting with status 0. -/
theorem c8_amended_witness :
    runMain [('-' :: '-' :: toL "z")] ctx0
      = .exit [.errorOption (optPrefix (toL "z") ++ toL "z"), .infoTryhelp] 0 :=
  c8_amended (toL "z") ctx0 (by decide) (by decide) (by decide)

theorem digitChar_props (n : Nat) :
    (digitChar n).isWhitespace = false ∧ digitChar n ≠ 'o' ∧ digitChar n ≠ '=' := by
  rcases n with _ | _ | _ | _ | _ | _ | _ | _ | _ | _ | n
  all_goals try decide
  have h : digitChar (n + 1 + 1 + 1 + 1 + 1 + 1 + 1 + 1 + 1 + 1) = '*' := rfl
  rw [h]
  decide

theorem natReprGo_props : ∀ (fuel n : Nat), ∀ c ∈ natReprGo fuel n,
    c.isWhitespace = false ∧ c ≠ 'o' ∧ c ≠ '=' := by
  intro fuel
  induction fuel with
  | zero => intro n c hc; simp [natReprGo] at hc
  | succ f ih =>
    intro n c hc
    simp only [natReprGo] at hc
    split at hc
    · rw [List.mem_singleton] at hc
      exact hc ▸ digitChar_props n
    · rcases List.mem_append.mp hc with h | h
      · exact ih (n / 10) c h
      · rw [List.mem_singleton] at h
        exact h ▸ digitChar_props (n % 10)

theorem natRepr_props (n : Nat) : ∀ c ∈ natRepr n,
    c.isWhitespace = false ∧ c ≠ 'o' ∧ c ≠ '=' :=
  natReprGo_props (n + 1) n

theorem intRepr_props (i : Int) : ∀ c ∈ intRepr i,
    c.isWhitespace = false ∧ c ≠ 'o' ∧ c ≠ '=' := by
  intro c hc
  unfold intRepr at hc
  split at hc
  · cases hc with
    | head => exact ⟨by decide, by decide, by decide⟩
    | tail _ hc => exact natRepr_props _ c hc
  · exact natRepr_props _ c hc

theorem natRepr_ne_nil (n : Nat) : natRepr n ≠ [] := by
  unfold natRepr natReprGo
  split
  · simp
  · simp

theorem intRepr_ne_nil (i : Int) : intRepr i ≠ [] := by
  unfold intRepr
  split
  · simp
  · exact natRepr_ne_nil _

theorem hexDigit_isSome_props (c : Char) (h : (hexDigit? c).isSome = true) :
    c.isWhitespace = false ∧ c ≠ 'o' ∧ c ≠ '=' := by
  unfold hexDigit? at h
  rw [Option.isSome_map'] at h
  obtain ⟨p, hp⟩ := Option.isSome_iff_exists.mp h
  have hmem := List.mem_of_find?_eq_some hp
  have hpc : p.1 = c := by simpa using List.find?_some hp
  subst hpc
  fin_cases hmem <;> decide

theorem splitWsAux_append (xs : Str) (h : ∀ c ∈ xs, c.isWhitespace = false) :
    ∀ acc rest : Str, splitWsAux acc (xs ++ rest) = splitWsAux (xs.reverse ++ acc) rest := by
  induction xs with
  | nil => intro acc rest; rfl
  | cons x xs ih =>
    intro acc rest
    have hx := h x (List.mem_cons_self _ _)
    rw [List.cons_append, splitWsAux, if_neg (by simp [hx])]
    rw [ih (fun c hc => h c (List.mem_cons_of_mem _ hc)) (x :: acc) rest]
    rw [List.reverse_cons, List.append_assoc]
    rfl

theorem pySplitWs_token (t : Str) (hne : t ≠ []) (h : ∀ c ∈ t, c.isWhitespace = false)
    (rest : Str) :
    pySplitWs (t ++ ' ' :: rest) = t :: pySplitWs rest := by
  unfold pySplitWs
  rw [splitWsAux_append t h [] (' ' :: rest), List.append_nil]
  rw [splitWsAux, if_pos (by decide), if_neg (by simp [hne]), List.reverse_reverse]

theorem pySplitWs_final (t : Str) (hne : t ≠ []) (h : ∀ c ∈ t, c.isWhitespace = false) :
    pySplitWs (t ++ ['\n']) = [t] := by
  unfold pySplitWs
  rw [splitWsAux_append t h [] ['\n'], List.append_nil]
  rw [splitWsAux, if_pos (by decide), if_neg (by simp [hne]), List.reverse_reverse]
  rfl

theorem mem_of_containsSub {pat l : Str} (h : containsSub pat l = true) :
    ∀ c ∈ pat, c ∈ l := by
  induction l with
  | nil =>
    intro c hc
    rw [containsSub] at h
    rw [decide_eq_true_eq] at h
    subst h
    cases hc
  | cons a rest ih =>
    intro c hc
    rw [containsSub, Bool.or_eq_true] at h
    rcases h with h | h
    · exact (List.isPrefixOf_iff_prefix.mp h).sublist.subset hc
    · exact List.mem_cons_of_mem _ (ih h c hc)

theorem containsSub_self_append (pat r : Str) (h : pat ≠ []) :
    containsSub pat (pat ++ r) = true := by
  rcases pat with _ | ⟨p, ps⟩
  · exact absurd rfl h
  rw [List.cons_append, containsSub, Bool.or_eq_true]
  left
  rw [List.isPrefixOf_iff_prefix, ← List.cons_append]
  exact List.prefix_append _ _

theorem not_containsSub_color {w : Str} (hw : ∀ c ∈ w, c ≠ 'o') :
    containsSub (toL "color=#") w = false := by
  cases hcs : containsSub (toL "color=#") w
  · rfl
  · exact absurd rfl (hw 'o' (mem_of_containsSub hcs 'o' (by decide)))

theorem splitOnCharAux_no_sep (sep : Char) :
    ∀ (l acc : Str), (∀ c ∈ l, c ≠ sep) →
      splitOnCharAux sep acc l = [acc.reverse ++ l] := by
  intro l
  induction l with
  | nil => intro acc _; simp [splitOnCharAux]
  | cons c cs ih =>
    intro acc h
    rw [splitOnCharAux, if_neg (h c (List.mem_cons_self _ _))]
    rw [ih (c :: acc) (fun x hx => h x (List.mem_cons_of_mem _ hx))]
    simp

theorem splitOnChar_color (hx : Str) (h : ∀ c ∈ hx, c ≠ '=') :
    splitOnChar '=' (toL "color=" ++ hx) = [toL "color", hx] := by
  have hb : toL "color=" ++ hx = 'c' :: 'o' :: 'l' :: 'o' :: 'r' :: '=' :: hx := rfl
  rw [splitOnChar, hb]
  rw [splitOnCharAux, if_neg (by decide), splitOnCharAux, if_neg (by decide),
    splitOnCharAux, if_neg (by decide), splitOnCharAux, if_neg (by decide),
    splitOnCharAux, if_neg (by decide), splitOnCharAux, if_pos rfl]
  rw [splitOnCharAux_no_sep '=' hx [] h]
  rfl

theorem bytesFromHex_six (d1 d2 d3 d4 d5 d6 : Char)
    (h1 : (hexDigit? d1).isSome = true) (h2 : (hexDigit? d2).isSome = true)
    (h3 : (hexDigit? d3).isSome = true) (h4 : (hexDigit? d4).isSome = true)
    (h5 : (hexDigit? d5).isSome = true) (h6 : (hexDigit? d6).isSome = true) :
    bytesFromHex [d1, d2, d3, d4, d5, d6]
      = some [hexByte d1 d2, hexByte d3 d4, hexByte d5 d6] := by
  obtain ⟨v1, hv1⟩ := Option.isSome_iff_exists.mp h1
  obtain ⟨v2, hv2⟩ := Option.isSome_iff_exists.mp h2
  obtain ⟨v3, hv3⟩ := Option.isSome_iff_exists.mp h3
  obtain ⟨v4, hv4⟩ := Option.isSome_iff_exists.mp h4
  obtain ⟨v5, hv5⟩ := Option.isSome_iff_exists.mp h5
  obtain ⟨v6, hv6⟩ := Option.isSome_iff_exists.mp h6
  simp only [bytesFromHex, hv1, hv2, hv3, hv4, hv5, hv6, Option.map_some', Option.map_none']
  simp only [hexByte, hexVal, hv1, hv2, hv3, hv4, hv5, hv6, Option.getD_some]

theorem htmlWordsLoop_skip {w : Str} (hf : containsSub (toL "color=#") w = false)
    (ws : List Str) : htmlWordsLoop (w :: ws) = htmlWordsLoop ws := by
  rw [htmlWordsLoop, hf, if_neg Bool.false_ne_true]

theorem htmlWordsLoop_hit {w hexv : Str} {r0 g0 b0 : Int}
    (ht : containsSub (toL "color=#") w = true)
    (hg : (splitOnChar '=' w).get? 1 = some hexv)
    (hb : bytesFromHex (hexv.drop 1) = some [r0, g0, b0])
    (ws : List Str) :
    htmlWordsLoop (w :: ws)
      = (htmlWordsLoop ws).map
          (fun l => (⟨some hexv, (r0, g0, b0), set_html (some hexv) (r0, g0, b0)⟩ : Swatch) :: l) := by
  rw [htmlWordsLoop, if_pos ht]
  simp only [hg, hb, Swatch.make]

/-- C5, counterexample: a record whose stored RGB disagrees with its hex
(both trusted from the CSV, never reconciled) does not round-trip: re-
extraction decodes the RGB from the hex, so `#000001` with RGB `(5,5,5)`
comes back with RGB `(0,0,1)`, not the same triple the claim requires. -/
theorem c5_counterexample :
    get_swatches_from_data_html
        ((⟨some (toL "#000001"), (5, 5, 5),
           set_html (some (toL "#000001")) (5, 5, 5)⟩ : Swatch).html)
      = .ok [⟨some (toL "#000001"), (0, 0, 1), set_html (some (toL "#000001")) (0, 0, 1)⟩]
    ∧ ((0, 0, 1) : Int × Int × Int) ≠ (5, 5, 5) := by
  exact ⟨rfl, by decide⟩

/-- C5 (amended): rendering a record whose hex matches `#[0-9A-Fa-f]{6}`
to its HTML fragment and re-extracting yields exactly one record with the
same hex string, whose RGB triple is re-derived by decoding the hex byte
pairs — hence equal to the original RGB exactly when the record's hex and
RGB agree (the round-trip as claimed holds only for hex-consistent records). -/
theorem c5_html_roundtrip (d1 d2 d3 d4 d5 d6 : Char) (rgbv : Int × Int × Int)
    (h1 : (hexDigit? d1).isSome = true) (h2 : (hexDigit? d2).isSome = true)
    (h3 : (hexDigit? d3).isSome = true) (h4 : (hexDigit? d4).isSome = true)
    (h5 : (hexDigit? d5).isSome = true) (h6 : (hexDigit? d6).isSome = true) :
    get_swatches_from_data_html (set_html (some ('#' :: [d1, d2, d3, d4, d5, d6])) rgbv)
      = .ok [⟨some ('#' :: [d1, d2, d3, d4, d5, d6]),
             (hexByte d1 d2, hexByte d3 d4, hexByte d5 d6),
             set_html (some ('#' :: [d1, d2, d3, d4, d5, d6]))
               (hexByte d1 d2, hexByte d3 d4, hexByte d5 d6)⟩] := by
  obtain ⟨r, g, b⟩ := rgbv
  have hxprops : ∀ c ∈ ('#' :: [d1, d2, d3, d4, d5, d6] : Str),
      c.isWhitespace = false ∧ c ≠ 'o' ∧ c ≠ '=' := by
    intro c hc
    simp only [List.mem_cons, List.not_mem_nil, or_false] at hc
    rcases hc with rfl | rfl | rfl | rfl | rfl | rfl | rfl
    · exact ⟨by decide, by decide, by decide⟩
    · exact hexDigit_isSome_props _ h1
    · exact hexDigit_isSome_props _ h2
    · exact hexDigit_isSome_props _ h3
    · exact hexDigit_isSome_props _ h4
    · exact hexDigit_isSome_props _ h5
    · exact hexDigit_isSome_props _ h6
  have bA : toL "<font color=" =
      '<' :: 'f' :: 'o' :: 'n' :: 't' :: ' ' :: 'c' :: 'o' :: 'l' :: 'o' :: 'r' :: '=' :: [] := rfl
  have bB : toL " size=" = ' ' :: 's' :: 'i' :: 'z' :: 'e' :: '=' :: [] := rfl
  have bC : toL "72px" = '7' :: '2' :: 'p' :: 'x' :: [] := rfl
  have bD : toL ">" = '>' :: [] := rfl
  have bE : toL "▄" = '▄' :: [] := rfl
  have bF : toL " </font><b>HEX:</b> " =
      ' ' :: '<' :: '/' :: 'f' :: 'o' :: 'n' :: 't' :: '>' :: '<' :: 'b' :: '>' :: 'H' ::
        'E' :: 'X' :: ':' :: '<' :: '/' :: 'b' :: '>' :: ' ' :: [] := rfl
  have bG : toL " - <b>RGB:</b> " =
      ' ' :: '-' :: ' ' :: '<' :: 'b' :: '>' :: 'R' :: 'G' :: 'B' :: ':' :: '<' :: '/' ::
        'b' :: '>' :: ' ' :: [] := rfl
  have bH : toL "(" = '(' :: [] := rfl
  have bI : toL ", " = ',' :: ' ' :: [] := rfl
  have bJ : toL ")" = ')' :: [] := rfl
  have bK : toL "<br>\n" = '<' :: 'b' :: 'r' :: '>' :: '\n' :: [] := rfl
  have bL : toL "<font" = '<' :: 'f' :: 'o' :: 'n' :: 't' :: [] := rfl
  have bM : toL "color=" = 'c' :: 'o' :: 'l' :: 'o' :: 'r' :: '=' :: [] := rfl
  have bN : toL "size=72px>▄" =
      's' :: 'i' :: 'z' :: 'e' :: '=' :: '7' :: '2' :: 'p' :: 'x' :: '>' :: '▄' :: [] := rfl
  have bO : toL "</font><b>HEX:</b>" =
      '<' :: '/' :: 'f' :: 'o' :: 'n' :: 't' :: '>' :: '<' :: 'b' :: '>' :: 'H' :: 'E' ::
        'X' :: ':' :: '<' :: '/' :: 'b' :: '>' :: [] := rfl
  have bP : toL "-" = '-' :: [] := rfl
  have bQ : toL "<b>RGB:</b>" =
      '<' :: 'b' :: '>' :: 'R' :: 'G' :: 'B' :: ':' :: '<' :: '/' :: 'b' :: '>' :: [] := rfl
  have bR : toL ")<br>" = ')' :: '<' :: 'b' :: 'r' :: '>' :: [] := rfl
  have e1 : set_html (some ('#' :: [d1, d2, d3, d4, d5, d6])) (r, g, b)
      = toL "<font" ++ ' ' ::
          ((toL "color=" ++ ('#' :: [d1, d2, d3, d4, d5, d6])) ++ ' ' ::
            (toL "size=72px>▄" ++ ' ' ::
              (toL "</font><b>HEX:</b>" ++ ' ' ::
                (('#' :: [d1, d2, d3, d4, d5, d6]) ++ ' ' ::
                  (toL "-" ++ ' ' ::
                    (toL "<b>RGB:</b>" ++ ' ' ::
                      (('(' :: (intRepr r ++ [','])) ++ ' ' ::
                        ((intRepr g ++ [',']) ++ ' ' ::
                          ((intRepr b ++ toL ")<br>") ++ ['\n']))))))))) := by
    simp only [set_html, pyStrOf, SWATCH_SIZE, SWATCH_CHAR, tupleRepr,
      bA, bB, bC, bD, bE, bF, bG, bH, bI, bJ, bK, bL, bM, bN, bO, bP, bQ, bR,
      List.cons_append, List.nil_append, List.append_assoc]
  have hcolor_noWs : ∀ c ∈ toL "color=" ++ ('#' :: [d1, d2, d3, d4, d5, d6]),
      c.isWhitespace = false := by
    intro c hc
    rcases List.mem_append.mp hc with h | h
    · rw [bM] at h
      fin_cases h <;> decide
    · exact (hxprops c h).1
  have hnum_noWs : ∀ (i : Int) (tail : Str), (∀ c ∈ tail, c.isWhitespace = false) →
      ∀ c ∈ intRepr i ++ tail, c.isWhitespace = false := by
    intro i tail ht c hc
    rcases List.mem_append.mp hc with h | h
    · exact (intRepr_props i c h).1
    · exact ht c h
  have hnum_noO : ∀ (i : Int) (tail : Str), (∀ c ∈ tail, c ≠ 'o') →
      ∀ c ∈ intRepr i ++ tail, c ≠ 'o' := by
    intro i tail ht c hc
    rcases List.mem_append.mp hc with h | h
    · exact (intRepr_props i c h).2.1
    · exact ht c h
  have hsplit : pySplitWs (set_html (some ('#' :: [d1, d2, d3, d4, d5, d6])) (r, g, b))
      = [toL "<font", toL "color=" ++ ('#' :: [d1, d2, d3, d4, d5, d6]),
         toL "size=72px>▄", toL "</font><b>HEX:</b>", '#' :: [d1, d2, d3, d4, d5, d6],
         toL "-", toL "<b>RGB:</b>", '(' :: (intRepr r ++ [',']),
         intRepr g ++ [','], intRepr b ++ toL ")<br>"] := by
    rw [e1]
    rw [pySplitWs_token (toL "<font") (by decide) (by decide)]
    rw [pySplitWs_token (toL "color=" ++ ('#' :: [d1, d2, d3, d4, d5, d6])) (by simp)
      hcolor_noWs]
    rw [pySplitWs_token (toL "size=72px>▄") (by decide) (by decide)]
    rw [pySplitWs_token (toL "</font><b>HEX:</b>") (by decide) (by decide)]
    rw [pySplitWs_token ('#' :: [d1, d2, d3, d4, d5, d6]) (by simp)
      (fun c hc => (hxprops c hc).1)]
    rw [pySplitWs_token (toL "-") (by decide) (by decide)]
    rw [pySplitWs_token (toL "<b>RGB:</b>") (by decide) (by decide)]
    rw [pySplitWs_token ('(' :: (intRepr r ++ [','])) (by simp) ?w8]
    case w8 =>
      intro c hc
      cases hc with
      | head => decide
      | tail _ hc => exact hnum_noWs r [','] (by decide) c hc
    rw [pySplitWs_token (intRepr g ++ [',']) (by simp) (hnum_noWs g [','] (by decide))]
    rw [pySplitWs_final (intRepr b ++ toL ")<br>") (by simp [intRepr_ne_nil])
      (hnum_noWs b (toL ")<br>") (by decide))]
  have hc2 : containsSub (toL "color=#") (toL "color=" ++ ('#' :: [d1, d2, d3, d4, d5, d6]))
      = true := by
    have hb : toL "color=" ++ ('#' :: [d1, d2, d3, d4, d5, d6])
        = toL "color=#" ++ [d1, d2, d3, d4, d5, d6] := rfl
    rw [hb]
    exact containsSub_self_append _ _ (by decide)
  have hget : (splitOnChar '=' (toL "color=" ++ ('#' :: [d1, d2, d3, d4, d5, d6]))).get? 1
      = some ('#' :: [d1, d2, d3, d4, d5, d6]) := by
    rw [splitOnChar_color _ (fun c hc => (hxprops c hc).2.2)]
    rfl
  have hbytes : bytesFromHex (('#' :: [d1, d2, d3, d4, d5, d6]).drop 1)
      = some [hexByte d1 d2, hexByte d3 d4, hexByte d5 d6] :=
    bytesFromHex_six d1 d2 d3 d4 d5 d6 h1 h2 h3 h4 h5 h6
  rw [get_swatches_from_data_html, hsplit]
  rw [htmlWordsLoop_skip (by decide)]
  rw [htmlWordsLoop_hit hc2 hget hbytes]
  rw [htmlWordsLoop_skip (by decide)]
  rw [htmlWordsLoop_skip (by decide)]
  rw [htmlWordsLoop_skip (not_containsSub_color (fun c hc => (hxprops c hc).2.1))]
  rw [htmlWordsLoop_skip (by decide)]
  rw [htmlWordsLoop_skip (by decide)]
  rw [htmlWordsLoop_skip (not_containsSub_color ?s8)]
  case s8 =>
    intro c hc
    cases hc with
    | head => decide
    | tail _ hc => exact hnum_noO r [','] (by decide) c hc
  rw [htmlWordsLoop_skip (not_containsSub_color (hnum_noO g [','] (by decide)))]
  rw [htmlWordsLoop_skip (not_containsSub_color (hnum_noO b (toL ")<br>") (by decide)))]
  rfl

/-- C5 witness: a hex-consistent record round-trips exactly: `#000001`
with RGB `(0,0,1)` re-extracts to itself. -/
theorem c5_html_roundtrip_witness :
    get_swatches_from_data_html (set_html (some ('#' :: ['0', '0', '0', '0', '0', '1'])) (0, 0, 1))
      = .ok [⟨some ('#' :: ['0', '0', '0', '0', '0', '1']),
             (hexByte '0' '0', hexByte '0' '0', hexByte '0' '1'),
             set_html (some ('#' :: ['0', '0', '0', '0', '0', '1']))
               (hexByte '0' '0', hexByte '0' '0', hexByte '0' '1')⟩] :=
  c5_html_roundtrip '0' '0' '0' '0' '0' '1' (0, 0, 1)
    (by decide) (by decide) (by decide) (by decide) (by decide) (by decide)

/-- C9 witness: with `-v` and `-s` both present (value flag first on the
command line), saturation still wins over value. -/
theorem c9_sort_precedence_witness :
    determineSort [toL "v", toL "s"] = some .saturation ∧
      parse_args [toL "-vs"] [] = .ok []
        ⟨Mode.file, none, none, some .saturation, 0⟩ :=
  ⟨c9_sort_precedence.2.2.1 [toL "v", toL "s"] (by decide) (by decide), rfl⟩

end NixCsv
